import Mathlib

/-!
Verification development for the Jupalyse price/amount core.

The definitions below are shallow embeddings of the TypeScript source:
  - src/token-prices.ts        (bucketing, price-key derivation, the fetcher)
  - src/routes/trades.tsx      (calculateDollarAmount, getRates, RateCell,
                                adjustOutputAmountForFee, getTokenPrice)
  - src/routes/trades-csv.ts   (BigDecimal add used by the CSV gross amount)
  - src/types.ts               (AmountToDisplay, MintData, Deposit, Trade)

Machine-number conventions:
  - An arbitrary-precision decimal string (the source type StringifiedNumber)
    is embedded as DecStr: an integer mantissa together with the number of
    fractional digits; its denoted value is toQ.
  - A JavaScript number (IEEE-754 binary64) is embedded as Dbl: an integer
    mantissa m and exponent e denoting m * 2^(-e).  Arithmetic on Dbl is the
    exact rational operation followed by rounding to 53 significant bits,
    round-to-nearest ties-to-even, which is the IEEE-754 semantics of the
    JS operators * and / for results in the normal range (overflow and
    subnormals never arise on the inputs considered here).
  - Timestamps are unix seconds (Nat); Date values are unix milliseconds.
-/

/-- Embedding of roundTimestampToMinuteBoundary (src/token-prices.ts):
timestamp - (timestamp % 60). -/
def roundTimestampToMinuteBoundary (timestamp : ℕ) : ℕ :=
  timestamp - timestamp % 60

/-- A decimal string: mantissa and number of fractional digits.  The string
"1.5" is ⟨15, 1⟩, the raw integer string "1500000" is ⟨1500000, 0⟩. -/
structure DecStr where
  mant : ℤ
  scale : ℕ
  deriving DecidableEq, Repr

/-- The rational value denoted by a decimal string. -/
def toQ (s : DecStr) : ℚ := (s.mant : ℚ) / 10 ^ s.scale

/-- Embedding of the source AmountToDisplay (src/types.ts): a decimal string
plus the adjustedForDecimals encoding tag. -/
structure AmountToDisplay where
  amount : DecStr
  adjustedForDecimals : Bool
  deriving DecidableEq, Repr

/-- Embedding of the source MintData (src/types.ts). -/
structure MintData where
  address : String
  name : String
  symbol : String
  decimals : ℕ
  logoURI : String
  deriving DecidableEq, Repr

/-- BigDecimal.subtract on decimal strings: align the two mantissas to the
larger number of fractional digits and subtract the integers (exact). -/
def decSub (a b : DecStr) : DecStr :=
  let s := max a.scale b.scale
  ⟨a.mant * 10 ^ (s - a.scale) - b.mant * 10 ^ (s - b.scale), s⟩

/-- BigDecimal.add on decimal strings (used by trades-csv.ts for the gross
output amount): align and add the mantissas (exact). -/
def decAdd (a b : DecStr) : DecStr :=
  let s := max a.scale b.scale
  ⟨a.mant * 10 ^ (s - a.scale) + b.mant * 10 ^ (s - b.scale), s⟩

/-- BigInt subtraction on raw integer amount strings (scale 0 by
construction; BigInt(string) would throw on a fractional string). -/
def bigIntSub (a b : DecStr) : DecStr :=
  ⟨a.mant - b.mant, 0⟩

/-- Embedding of adjustOutputAmountForFee (src/routes/trades.tsx, lines
765-801).  Fallible: the source throws on an encoding-tag mismatch, embedded
as Except.error with the thrown message. -/
def adjustOutputAmountForFee (outputAmountToDisplay feeToDisplay : AmountToDisplay)
    (subtractFee : Bool) : Except String AmountToDisplay :=
  if !subtractFee then .ok outputAmountToDisplay
  else if outputAmountToDisplay.adjustedForDecimals != feeToDisplay.adjustedForDecimals then
    .error "Output and fee must have the same adjustedForDecimals"
  else if outputAmountToDisplay.adjustedForDecimals then
    .ok ⟨decSub outputAmountToDisplay.amount feeToDisplay.amount, true⟩
  else
    .ok ⟨bigIntSub outputAmountToDisplay.amount feeToDisplay.amount, false⟩

/-! ## IEEE-754 binary64 model (the JavaScript number operations used by
calculateDollarAmount in src/routes/trades.tsx, lines 432-449) -/

/-- Scale the positive fraction n/d by powers of two until it lies in
[2^52, 2^53), tracking the exponent; the represented value (n/d) * 2^(-e)
is invariant under each step.  Fuel 4200 covers the whole binary64 range. -/
def normLoopI : ℕ → ℕ → ℕ → ℤ → ℕ × ℕ × ℤ
  | 0, n, d, e => (n, d, e)
  | f + 1, n, d, e =>
    if n < 2 ^ 52 * d then normLoopI f (2 * n) d (e + 1)
    else if 2 ^ 53 * d ≤ n then normLoopI f n (2 * d) (e - 1)
    else (n, d, e)

/-- Round the fraction n/d (with n/d in [2^52, 2^53)) to the nearest
integer, ties to even. -/
def nearestEven (n d : ℕ) : ℕ :=
  let q := n / d
  let r := n % d
  if 2 * r < d then q
  else if d < 2 * r then q + 1
  else if q % 2 = 0 then q else q + 1

/-- A JavaScript number (binary64): the denoted value is m * 2^(-e). -/
structure Dbl where
  m : ℤ
  e : ℤ
  deriving DecidableEq, Repr

/-- Round the rational (n/d) * 2^(-e0) (d positive) to the nearest binary64
value, ties to even. -/
def roundRatD (n : ℤ) (d : ℕ) (e0 : ℤ) : Dbl :=
  if n = 0 then ⟨0, 0⟩
  else
    let p := normLoopI 4200 n.natAbs d e0
    ⟨Int.sign n * nearestEven p.1 p.2.1, p.2.2⟩

/-- JS Number(decimalString): correctly rounded decimal-to-binary64
conversion. -/
def jsNum (s : DecStr) : Dbl := roundRatD s.mant (10 ^ s.scale) 0

/-- JS multiplication on numbers: exact product, rounded. -/
def jsMul (a b : Dbl) : Dbl := roundRatD (a.m * b.m) 1 (a.e + b.e)

/-- JS division on numbers: exact quotient, rounded (divisor 0 never occurs
on this path). -/
def jsDiv (a b : Dbl) : Dbl :=
  if b.m = 0 then ⟨0, 0⟩
  else roundRatD (if b.m < 0 then -a.m else a.m) b.m.natAbs (a.e - b.e)

/-- JS 10 ** decimals on numbers. -/
def jsPow10 (decimals : ℕ) : Dbl := roundRatD ((10 : ℤ) ^ decimals) 1 0

/-- The rational value denoted by a binary64 model value. -/
def dblValue (d : Dbl) : ℚ :=
  if 0 ≤ d.e then (d.m : ℚ) / 2 ^ d.e.toNat else (d.m : ℚ) * 2 ^ (-d.e).toNat

/-- Embedding of calculateDollarAmount (src/routes/trades.tsx, lines
432-449): tokenPrice * Number(amount) for adjusted amounts, and
tokenPrice * (Number(amount) / 10 ** decimals) for raw amounts; undefined
when a raw amount has no mint metadata. -/
def calculateDollarAmount (amount : AmountToDisplay) (tokenPrice : Dbl)
    (tokenMintData : Option MintData) : Option Dbl :=
  if amount.adjustedForDecimals then
    some (jsMul tokenPrice (jsNum amount.amount))
  else
    match tokenMintData with
    | none => none
    | some md => some (jsMul tokenPrice (jsDiv (jsNum amount.amount) (jsPow10 md.decimals)))

/-! ## js-big-decimal divide and getRates (src/routes/trades.tsx, 556-593) -/

/-- Truncation of a rational toward zero (the integer part that long
division produces). -/
def ratTrunc (q : ℚ) : ℤ := if 0 ≤ q then ⌊q⌋ else ⌈q⌉

/-- Truncate a rational to `prec` fractional decimal digits. -/
def truncToPrec (q : ℚ) (prec : ℕ) : ℚ := (ratTrunc (q * 10 ^ prec) : ℚ) / 10 ^ prec

/-- js-big-decimal divide(dividend, divisor, precision): throws
"Cannot divide by 0" on a zero divisor, otherwise long division carried to
`precision` fractional digits.  The exact final-digit rule does not matter
for the properties proved here (digit count and sub-ulp error bound). -/
def bigDecimalDivide (dividend divisor : ℚ) (precision : ℕ) : Except String ℚ :=
  if divisor = 0 then .error "Cannot divide by 0"
  else .ok (truncToPrec (dividend / divisor) precision)

/-- The decimal value getRates gives an amount: the amount itself if
adjusted, otherwise amount * 10^(-decimals) via the BigDecimal E-notation
constructor (exact). -/
def amtQ (a : AmountToDisplay) (md : MintData) : ℚ :=
  if a.adjustedForDecimals then toQ a.amount else toQ a.amount / 10 ^ md.decimals

/-- Embedding of getRates (src/routes/trades.tsx, lines 556-593): two
directional rates, input/output at the input mint's precision and
output/input at the output mint's precision; division by a zero amount
throws inside js-big-decimal. -/
def getRates (inputAmountToDisplay outputAmountToDisplay : AmountToDisplay)
    (inputMintData outputMintData : MintData) : Except String (ℚ × ℚ) := do
  let inputAmountBigDecimal := amtQ inputAmountToDisplay inputMintData
  let outputAmountBigDecimal := amtQ outputAmountToDisplay outputMintData
  let rateInputOverOutput ←
    bigDecimalDivide inputAmountBigDecimal outputAmountBigDecimal inputMintData.decimals
  let rateOutputOverInput ←
    bigDecimalDivide outputAmountBigDecimal inputAmountBigDecimal outputMintData.decimals
  .ok (rateInputOverOutput, rateOutputOverInput)

/-- Embedding of the RateCell guard (src/routes/trades.tsx, lines 611-614):
with either mint's metadata missing the cell renders "Unknown" (ok none);
otherwise it computes getRates (whose exceptions propagate). -/
def rateCell (inputAmountToDisplay outputAmountToDisplay : AmountToDisplay)
    (inputMintData outputMintData : Option MintData) :
    Except String (Option (ℚ × ℚ)) :=
  match inputMintData, outputMintData with
  | some imd, some omd =>
    (getRates inputAmountToDisplay outputAmountToDisplay imd omd).map some
  | _, _ => .ok none

/-! ## Events and price-key derivation (src/token-prices.ts, lines 12-32) -/

/-- Embedding of the source Deposit event (src/types.ts); date is unix
milliseconds (Date.getTime()). -/
structure Deposit where
  date : ℕ
  inputMint : String
  inputAmount : AmountToDisplay
  transactionSignature : String
  deriving DecidableEq, Repr

/-- Embedding of the source Trade event (src/types.ts); the fee is
denominated in the output mint. -/
structure Trade where
  date : ℕ
  inputMint : String
  outputMint : String
  inputAmount : AmountToDisplay
  outputAmount : AmountToDisplay
  fee : AmountToDisplay
  transactionSignature : String
  deriving DecidableEq, Repr

/-- The discriminated union (Trade | Deposit) distinguished by the source
kind field. -/
inductive Event where
  | deposit (d : Deposit)
  | trade (t : Trade)
  deriving DecidableEq, Repr

/-- tokenPricesToFetch[mint] ||= []; tokenPricesToFetch[mint].push(ts) on a
JS object with string keys: update the first (unique) matching entry, or
append a new key in insertion order. -/
def pushTs : List (String × List ℕ) → String → ℕ → List (String × List ℕ)
  | [], mint, ts => [(mint, [ts])]
  | (k, l) :: rest, mint, ts =>
    if k = mint then (k, l ++ [ts]) :: rest else (k, l) :: pushTs rest mint ts

/-- The loop body of getTokenPricesToFetch: push the input mint at
Math.floor(date/1000); for a trade additionally push the output mint at
the same timestamp. -/
def pushEvent (acc : List (String × List ℕ)) : Event → List (String × List ℕ)
  | .deposit d => pushTs acc d.inputMint (d.date / 1000)
  | .trade t => pushTs (pushTs acc t.inputMint (t.date / 1000)) t.outputMint (t.date / 1000)

/-- Embedding of getTokenPricesToFetch (src/token-prices.ts, lines 12-32):
fold the loop body over the event list starting from the empty object. -/
def getTokenPricesToFetch (events : List Event) : List (String × List ℕ) :=
  events.foldl pushEvent []

/-- The individual (mint, timestamp) lookups contained in a
TokenPricesToFetch map. -/
def pairsOf (m : List (String × List ℕ)) : List (String × ℕ) :=
  m.flatMap fun p => p.2.map fun ts => (p.1, ts)

/-! ## The rate-limited fetcher (src/token-prices.ts, lines 51-143)

The fetcher's interaction with the outside world is embedded as an
environment: `respond i` is the provider's answer to the i-th network
request of the batch, and `abortAt` is the global step index at which the
AbortSignal fires (none = never).  Suspension points (each fetch, each
cooldown sleep) advance a step clock by one:
  - a signal that is already set when an iteration begins is seen by the
    top-of-loop check;
  - a signal firing at step c+1 fires during the operation that started at
    step c: an in-flight fetch rejects with AbortError, an in-progress
    sleep is rejected by the abort listener with the Error("Aborted");
  - a signal that is already set when the sleep starts never rejects it
    (the abort event has already been dispatched), so the timeout resolves
    and the retry fetch then rejects immediately.
The returned state keeps, besides the fetchedTokenPrices object, the list
of (address, roundedTimestamp) network requests actually issued, which is
the observable the deduplication and retry-bound claims speak about. -/

/-- One item of the Birdeye history_price response. -/
structure BirdeyeItem where
  address : String
  unixTime : ℕ
  value : ℚ
  deriving DecidableEq, Repr

/-- The provider response: HTTP status plus the parsed JSON body
{success, data.items}. -/
structure BirdeyeResponse where
  status : ℕ
  success : Bool
  items : List BirdeyeItem
  deriving DecidableEq, Repr

/-- The external world of one fetchTokenPrices call. -/
structure FetchEnv where
  respond : ℕ → BirdeyeResponse
  abortAt : Option ℕ

/-- Whether the abort signal is set at step clock c. -/
def signalAborted (env : FetchEnv) (c : ℕ) : Bool :=
  match env.abortAt with
  | none => false
  | some a => a ≤ c

/-- Whether the abort signal fires during the suspension that starts at
step clock c. -/
def firesDuring (env : FetchEnv) (c : ℕ) : Bool :=
  match env.abortAt with
  | none => false
  | some a => a = c + 1

/-- JS object read fetchedTokenPrices[key]: undefined (none) when absent. -/
def objGet : List (String × ℚ) → String → Option ℚ
  | [], _ => none
  | (k, v) :: rest, key => if k = key then some v else objGet rest key

/-- JS object write fetchedTokenPrices[key] = price: overwrite in place or
append in insertion order. -/
def setPrice : List (String × ℚ) → String → ℚ → List (String × ℚ)
  | [], key, price => [(key, price)]
  | (k, v) :: rest, key, price =>
    if k = key then (key, price) :: rest else (k, v) :: setPrice rest key price

/-- The truthiness test `if (fetchedTokenPrices[key]) continue`: false for
an absent key and for a stored price of 0. -/
def priceTruthy : Option ℚ → Bool
  | none => false
  | some p => p != 0

/-- The template-literal cache key `${tokenAddress}-${roundedTimestamp}`
written by the fetcher (src/token-prices.ts, line 67). -/
def fetchedTokenPriceKey (tokenAddress : String) (roundedTimestamp : ℕ) : String :=
  tokenAddress ++ "-" ++ toString roundedTimestamp

/-- The state threaded through one fetchTokenPrices call. -/
structure FetchSt where
  prices : List (String × ℚ)
  log : List (String × ℕ)
  clock : ℕ
  deriving DecidableEq, Repr

/-- One fetch(url, {signal}) call: rejects when the signal is already set
or fires in flight; otherwise consumes the next provider response and
records the request. -/
def doFetch (env : FetchEnv) (st : FetchSt) (tokenAddress : String)
    (roundedTimestamp : ℕ) : Except String (BirdeyeResponse × FetchSt) :=
  if signalAborted env st.clock || firesDuring env st.clock then .error "AbortError"
  else .ok (env.respond st.log.length,
    { st with log := st.log ++ [(tokenAddress, roundedTimestamp)], clock := st.clock + 1 })

/-- The one-minute cooldown sleep with the abort listener attached: rejects
with Error("Aborted") only when the signal fires during the sleep. -/
def doSleep (env : FetchEnv) (st : FetchSt) : Except String FetchSt :=
  if !signalAborted env st.clock && firesDuring env st.clock then .error "Aborted"
  else .ok { st with clock := st.clock + 1 }

/-- The request with the single 429-cooldown-retry of src/token-prices.ts,
lines 79-116: on a 429 status, sleep one minute, then reissue the identical
request once; any second failure is handled by the caller's status check. -/
def requestWithRetry (env : FetchEnv) (st : FetchSt) (tokenAddress : String)
    (roundedTimestamp : ℕ) : Except String (BirdeyeResponse × FetchSt) :=
  match doFetch env st tokenAddress roundedTimestamp with
  | .error e => .error e
  | .ok (response, st1) =>
    if response.status = 429 then
      match doSleep env st1 with
      | .error e => .error e
      | .ok st2 => doFetch env st2 tokenAddress roundedTimestamp
    else .ok (response, st1)

/-- The first item's value (guarded by the non-empty check at the call
site). -/
def headValue : List BirdeyeItem → ℚ
  | [] => 0
  | item :: _ => item.value

/-- The loop body of fetchTokenPrices over the flattened (address,
timestamp) iteration sequence (src/token-prices.ts, lines 58-141): abort
check at the top of each iteration; bucket the timestamp; skip keys already
resolved to a truthy price; otherwise request (with the 429 retry), then on
a non-200 status or an unsuccessful/empty body log and continue, and on
success store the first item's value under the key. -/
def fetchGo (env : FetchEnv) : List (String × ℕ) → FetchSt → Except String FetchSt
  | [], st => .ok st
  | (tokenAddress, timestamp) :: rest, st =>
    if signalAborted env st.clock then .ok st
    else
      let roundedTimestamp := roundTimestampToMinuteBoundary timestamp
      let key := fetchedTokenPriceKey tokenAddress roundedTimestamp
      if priceTruthy (objGet st.prices key) then fetchGo env rest st
      else
        match requestWithRetry env st tokenAddress roundedTimestamp with
        | .error e => .error e
        | .ok (response, st1) =>
          if response.status ≠ 200 then fetchGo env rest st1
          else if !response.success || response.items.isEmpty then fetchGo env rest st1
          else fetchGo env rest
            { st1 with prices := setPrice st1.prices key (headValue response.items) }

/-- Embedding of fetchTokenPrices (src/token-prices.ts, lines 51-143): the
nested for-loops over Object.entries flattened to the (address, timestamp)
iteration sequence, starting from the empty fetchedTokenPrices object. -/
def fetchTokenPrices (env : FetchEnv) (tokenPricesToFetch : List (String × List ℕ)) :
    Except String FetchSt :=
  fetchGo env (pairsOf tokenPricesToFetch) ⟨[], [], 0⟩

/-! ## Display-side price lookup (src/routes/trades.tsx, lines 896-905) -/

/-- The key getTokenPrice computes for a mint and a Date (unix ms):
`${mintAddress}-${roundedTimestamp}` at the minute bucket of
Math.floor(date/1000). -/
def getTokenPriceKey (mintAddress : String) (date : ℕ) : String :=
  mintAddress ++ "-" ++ toString (roundTimestampToMinuteBoundary (date / 1000))

/-- Embedding of getTokenPrice (src/routes/trades.tsx, lines 896-905): a
total JS object read, undefined (none) for an absent key. -/
def getTokenPrice (tokenPrices : List (String × ℚ)) (mintAddress : String)
    (date : ℕ) : Option ℚ :=
  objGet tokenPrices (getTokenPriceKey mintAddress date)

/-! ## Helper lemmas -/

lemma toQ_align (m : ℤ) (sa s : ℕ) (h : sa ≤ s) :
    ((m * 10 ^ (s - sa) : ℤ) : ℚ) / 10 ^ s = (m : ℚ) / 10 ^ sa := by
  have hpow : (10 : ℚ) ^ s = 10 ^ (s - sa) * 10 ^ sa := by
    rw [← pow_add, Nat.sub_add_cancel h]
  push_cast
  rw [hpow, ← div_div, mul_div_cancel_right₀ _ (by positivity : ((10 : ℚ) ^ (s - sa)) ≠ 0)]

lemma toQ_decSub (a b : DecStr) : toQ (decSub a b) = toQ a - toQ b := by
  show ((a.mant * 10 ^ (max a.scale b.scale - a.scale) -
      b.mant * 10 ^ (max a.scale b.scale - b.scale) : ℤ) : ℚ) /
      10 ^ (max a.scale b.scale) = _
  rw [Int.cast_sub, sub_div]
  rw [toQ_align a.mant a.scale _ (le_max_left _ _),
    toQ_align b.mant b.scale _ (le_max_right _ _)]
  rfl

lemma toQ_decAdd (a b : DecStr) : toQ (decAdd a b) = toQ a + toQ b := by
  show ((a.mant * 10 ^ (max a.scale b.scale - a.scale) +
      b.mant * 10 ^ (max a.scale b.scale - b.scale) : ℤ) : ℚ) /
      10 ^ (max a.scale b.scale) = _
  rw [Int.cast_add, add_div]
  rw [toQ_align a.mant a.scale _ (le_max_left _ _),
    toQ_align b.mant b.scale _ (le_max_right _ _)]
  rfl

/-- Claim C9: for every non-negative integer timestamp t, the bucketing
function returns t - (t mod 60); it is idempotent and satisfies
0 ≤ t - bucket(t) < 60; as a Lean function it is pure and total. -/
theorem roundTimestampToMinuteBoundary_contract (t : ℕ) :
    roundTimestampToMinuteBoundary t = t - t % 60 ∧
    roundTimestampToMinuteBoundary (roundTimestampToMinuteBoundary t) =
      roundTimestampToMinuteBoundary t ∧
    t - roundTimestampToMinuteBoundary t < 60 := by
  refine ⟨rfl, ?_, ?_⟩ <;> (unfold roundTimestampToMinuteBoundary; omega)

/-- Claim C7: subtracting the fee requires both operands to carry the same
adjustedForDecimals tag: differing tags fail immediately with the
encoding-mismatch error and nothing is coerced; matching tags produce a
result carrying the shared tag whose value is output minus fee (for the raw
branch on the integer strings BigInt accepts, i.e. scale 0). -/
theorem adjustOutputAmountForFee_tagContract (outA fee : AmountToDisplay) :
    (outA.adjustedForDecimals ≠ fee.adjustedForDecimals →
      adjustOutputAmountForFee outA fee true =
        .error "Output and fee must have the same adjustedForDecimals") ∧
    (outA.adjustedForDecimals = fee.adjustedForDecimals →
      ∃ r, adjustOutputAmountForFee outA fee true = .ok r ∧
        r.adjustedForDecimals = outA.adjustedForDecimals ∧
        ((outA.adjustedForDecimals = false →
            outA.amount.scale = 0 ∧ fee.amount.scale = 0) →
          toQ r.amount = toQ outA.amount - toQ fee.amount)) := by
  constructor
  · intro hne
    have hb : (outA.adjustedForDecimals != fee.adjustedForDecimals) = true := by
      simpa [bne_iff_ne] using hne
    simp [adjustOutputAmountForFee, hb]
  · intro heq
    cases htag : outA.adjustedForDecimals with
    | true =>
      refine ⟨⟨decSub outA.amount fee.amount, true⟩, ?_, rfl, ?_⟩
      · simp [adjustOutputAmountForFee, ← heq, htag]
      · intro _
        exact toQ_decSub _ _
    | false =>
      refine ⟨⟨bigIntSub outA.amount fee.amount, false⟩, ?_, rfl, ?_⟩
      · simp [adjustOutputAmountForFee, htag, ← heq]
      · intro hsc
        obtain ⟨h1, h2⟩ := hsc rfl
        simp [bigIntSub, toQ, h1, h2]

/-- Witness for C7 at concrete amounts: mismatched tags throw, matched
adjusted tags subtract exactly (output 3.0, fee 0.1). -/
theorem adjustOutputAmountForFee_tagContract_witness :
    (adjustOutputAmountForFee ⟨⟨30, 1⟩, true⟩ ⟨⟨1, 1⟩, false⟩ true =
      .error "Output and fee must have the same adjustedForDecimals") ∧
    (∃ r, adjustOutputAmountForFee ⟨⟨30, 1⟩, true⟩ ⟨⟨1, 1⟩, true⟩ true = .ok r ∧
      r.adjustedForDecimals = (⟨⟨30, 1⟩, true⟩ : AmountToDisplay).adjustedForDecimals ∧
      (((⟨⟨30, 1⟩, true⟩ : AmountToDisplay).adjustedForDecimals = false →
          (⟨⟨30, 1⟩, true⟩ : AmountToDisplay).amount.scale = 0 ∧
          (⟨⟨1, 1⟩, true⟩ : AmountToDisplay).amount.scale = 0) →
        toQ r.amount = toQ ⟨30, 1⟩ - toQ ⟨1, 1⟩)) :=
  ⟨(adjustOutputAmountForFee_tagContract ⟨⟨30, 1⟩, true⟩ ⟨⟨1, 1⟩, false⟩).1 (by decide),
   (adjustOutputAmountForFee_tagContract ⟨⟨30, 1⟩, true⟩ ⟨⟨1, 1⟩, true⟩).2 rfl⟩

/-- Claim C1 (amended): the decimal-string fee arithmetic is exact — with
matching tags the subtraction result carries the exact value output minus
fee and adding the fee back (the BigDecimal add of trades-csv.ts) restores
the gross output exactly. -/
theorem feeSubtractionExactRoundTrip (outA fee : AmountToDisplay)
    (htag : outA.adjustedForDecimals = fee.adjustedForDecimals)
    (hscale : outA.adjustedForDecimals = false →
      outA.amount.scale = 0 ∧ fee.amount.scale = 0) :
    ∃ r, adjustOutputAmountForFee outA fee true = .ok r ∧
      toQ r.amount = toQ outA.amount - toQ fee.amount ∧
      toQ (decAdd r.amount fee.amount) = toQ outA.amount := by
  cases hadj : outA.adjustedForDecimals with
  | true =>
    refine ⟨⟨decSub outA.amount fee.amount, true⟩, ?_, ?_, ?_⟩
    · simp [adjustOutputAmountForFee, ← htag, hadj]
    · exact toQ_decSub _ _
    · rw [toQ_decAdd, toQ_decSub]; ring
  | false =>
    obtain ⟨h1, h2⟩ := hscale hadj
    refine ⟨⟨bigIntSub outA.amount fee.amount, false⟩, ?_, ?_, ?_⟩
    · simp [adjustOutputAmountForFee, ← htag, hadj]
    · simp [bigIntSub, toQ, h1, h2]
    · rw [toQ_decAdd]; simp [bigIntSub, toQ, h1, h2]

/-- Witness for the amended C1 round-trip at output 3.0, fee 0.1
(adjusted tags). -/
theorem feeSubtractionExactRoundTrip_witness :
    ∃ r, adjustOutputAmountForFee ⟨⟨30, 1⟩, true⟩ ⟨⟨1, 1⟩, true⟩ true = .ok r ∧
      toQ r.amount = toQ ⟨30, 1⟩ - toQ ⟨1, 1⟩ ∧
      toQ (decAdd r.amount ⟨1, 1⟩) = toQ ⟨30, 1⟩ :=
  feeSubtractionExactRoundTrip ⟨⟨30, 1⟩, true⟩ ⟨⟨1, 1⟩, true⟩ rfl (by simp)

/-- Counterexample for C1 as stated: the USD value path of
calculateDollarAmount is IEEE-754 double arithmetic and is not exact.  For
the adjusted amount string "0.1" and token price 3 (exactly representable),
the exact product is 3/10, but the computed double is
5404319552844596 * 2^(-54) = 0.30000000000000004 ≠ 3/10. -/
theorem calculateDollarAmount_usd_float_counterexample :
    calculateDollarAmount ⟨⟨1, 1⟩, true⟩ ⟨3, 0⟩ none = some ⟨5404319552844596, 54⟩ ∧
    toQ ⟨1, 1⟩ * dblValue ⟨3, 0⟩ = 3 / 10 ∧
    dblValue ⟨5404319552844596, 54⟩ ≠ 3 / 10 := by
  refine ⟨by decide, ?_, ?_⟩
  · norm_num [toQ, dblValue]
  · norm_num [dblValue, show ((54 : ℤ)).toNat = 54 from rfl]

lemma roundTimestampToMinuteBoundary_eq_of_same_bucket {t1 t2 : ℕ}
    (h : t1 / 60 = t2 / 60) :
    roundTimestampToMinuteBoundary t1 = roundTimestampToMinuteBoundary t2 := by
  unfold roundTimestampToMinuteBoundary
  omega

/-- Claim C10: for a mint m and timestamps in the same 60-second bucket,
the key the fetcher writes is the identical string the display-side
getTokenPrice computes, so a price resolved for the minute is found for
every event timestamp in that minute; and for an absent key getTokenPrice
totally returns undefined (none). -/
theorem priceKey_writer_reader_agreement (tokenPrices : List (String × ℚ))
    (m : String) (t1 date : ℕ) (p : ℚ)
    (hb : t1 / 60 = (date / 1000) / 60) :
    fetchedTokenPriceKey m (roundTimestampToMinuteBoundary t1) =
      getTokenPriceKey m date ∧
    (objGet tokenPrices (fetchedTokenPriceKey m (roundTimestampToMinuteBoundary t1)) =
        some p → getTokenPrice tokenPrices m date = some p) ∧
    (objGet tokenPrices (getTokenPriceKey m date) = none →
      getTokenPrice tokenPrices m date = none) := by
  have hkey : fetchedTokenPriceKey m (roundTimestampToMinuteBoundary t1) =
      getTokenPriceKey m date := by
    unfold fetchedTokenPriceKey getTokenPriceKey
    rw [roundTimestampToMinuteBoundary_eq_of_same_bucket hb]
  refine ⟨hkey, ?_, ?_⟩
  · intro hsome
    unfold getTokenPrice
    rw [← hkey, hsome]
  · intro hnone
    unfold getTokenPrice
    rw [hnone]

/-- Witness for C10: the price written for (A, 70) is found for a Date of
119000 ms (timestamp 119, same minute bucket), and a missing key reads
undefined. -/
theorem priceKey_writer_reader_agreement_witness :
    fetchedTokenPriceKey "A" (roundTimestampToMinuteBoundary 70) =
      getTokenPriceKey "A" 119000 ∧
    (objGet [("A-60", (5 : ℚ))] (fetchedTokenPriceKey "A" (roundTimestampToMinuteBoundary 70)) =
        some 5 → getTokenPrice [("A-60", (5 : ℚ))] "A" 119000 = some 5) ∧
    (objGet [("A-60", (5 : ℚ))] (getTokenPriceKey "A" 119000) = none →
      getTokenPrice [("A-60", (5 : ℚ))] "A" 119000 = none) :=
  priceKey_writer_reader_agreement [("A-60", (5 : ℚ))] "A" 70 119000 5 (by decide)

instance {ε α : Type} [DecidableEq ε] [DecidableEq α] : DecidableEq (Except ε α) := fun x y =>
  match x, y with
  | .ok a, .ok b => if h : a = b then .isTrue (by rw [h]) else .isFalse (by simp [h])
  | .error a, .error b => if h : a = b then .isTrue (by rw [h]) else .isFalse (by simp [h])
  | .ok _, .error _ => .isFalse (by simp)
  | .error _, .ok _ => .isFalse (by simp)

lemma signalAborted_none {env : FetchEnv} (h : env.abortAt = none) (c : ℕ) :
    signalAborted env c = false := by
  unfold signalAborted
  rw [h]

lemma firesDuring_none {env : FetchEnv} (h : env.abortAt = none) (c : ℕ) :
    firesDuring env c = false := by
  unfold firesDuring
  rw [h]

lemma objGet_setPrice_self (m : List (String × ℚ)) (k : String) (v : ℚ) :
    objGet (setPrice m k v) k = some v := by
  induction m with
  | nil => simp [setPrice, objGet]
  | cons hd rest ih =>
    obtain ⟨k', v'⟩ := hd
    by_cases h : k' = k
    · simp [setPrice, h, objGet]
    · simp [setPrice, h, objGet, ih]

/-- Claim C3 (amended): a cancellation observed by the top-of-iteration
check makes fetchTokenPrices stop issuing requests and return normally with
exactly the already-resolved keys (the state, including the request log, is
returned unchanged). -/
theorem fetchAbortChecked_returnsResolvedSubset (env : FetchEnv)
    (l : List (String × ℕ)) (st : FetchSt)
    (h : signalAborted env st.clock = true) :
    fetchGo env l st = .ok st := by
  cases l with
  | nil => rfl
  | cons hd tl =>
    obtain ⟨a, ts⟩ := hd
    simp [fetchGo, h]

/-- Witness for the amended C3: with the signal set from step 0, a
one-key batch returns the empty partial map and issues no request. -/
theorem fetchAbortChecked_returnsResolvedSubset_witness :
    fetchGo ⟨fun _ => ⟨200, true, []⟩, some 0⟩ [("A", 0)] ⟨[], [], 0⟩ =
      .ok ⟨[], [], 0⟩ :=
  fetchAbortChecked_returnsResolvedSubset _ _ _ (by decide)

/-- Counterexample for C3 as stated: a cancellation that arrives during the
rate-limit cooldown sleep does interrupt the sleep, but by rejecting it —
fetchTokenPrices then throws Error("Aborted") instead of returning the
partial result map.  (First request at step 0 answers 429; the signal fires
at step 2, during the sleep that starts at step 1.) -/
theorem fetchAbortDuringSleep_throws_counterexample :
    fetchTokenPrices ⟨fun _ => ⟨429, false, []⟩, some 2⟩ [("A", [0])] =
      .error "Aborted" := by decide

/-- Claim C2 (amended): on an HTTP 200, success=true, empty-items response
the fetcher records nothing for the key — no "no data" marker — and simply
continues with the remaining keys; the key stays absent from the result map
(so it is requested again by any later occurrence or batch). -/
theorem fetchEmptySuccess_skips_without_marker (env : FetchEnv)
    (tokenAddress : String) (timestamp : ℕ) (rest : List (String × ℕ))
    (st : FetchSt)
    (hab : env.abortAt = none)
    (hskip : priceTruthy (objGet st.prices
      (fetchedTokenPriceKey tokenAddress
        (roundTimestampToMinuteBoundary timestamp))) = false)
    (hresp : env.respond st.log.length = ⟨200, true, []⟩) :
    fetchGo env ((tokenAddress, timestamp) :: rest) st =
      fetchGo env rest
        { st with
          log := st.log ++ [(tokenAddress, roundTimestampToMinuteBoundary timestamp)],
          clock := st.clock + 1 } := by
  simp [fetchGo, signalAborted_none hab, hskip, requestWithRetry, doFetch,
    firesDuring_none hab, hresp]

/-- Witness for the amended C2: a success-empty response for key A-60
leaves the price map empty and processing continues with the sibling key. -/
theorem fetchEmptySuccess_skips_without_marker_witness :
    fetchGo ⟨fun _ => ⟨200, true, []⟩, none⟩ [("A", 70), ("B", 0)] ⟨[], [], 0⟩ =
      fetchGo ⟨fun _ => ⟨200, true, []⟩, none⟩ [("B", 0)]
        ⟨[], [("A", 60)], 1⟩ := by
  have h := fetchEmptySuccess_skips_without_marker
    ⟨fun _ => ⟨200, true, []⟩, none⟩ "A" 70 [("B", 0)] ⟨[], [], 0⟩
    rfl (by decide) rfl
  simpa using h

/-- Counterexample for C2 as stated: with every response success-but-empty,
the batch [A at 0s and 10s, B at 0s] ends with an empty result map — no
"no data" marker for A-0 — and the log shows A-0 was requested twice within
the very batch; a later batch over the same key requests it yet again
(every call starts from an empty fetchedTokenPrices object). -/
theorem fetchEmptySuccess_noMarker_counterexample :
    fetchTokenPrices ⟨fun _ => ⟨200, true, []⟩, none⟩ [("A", [0, 10]), ("B", [0])] =
      .ok ⟨[], [("A", 0), ("A", 0), ("B", 0)], 3⟩ ∧
    fetchTokenPrices ⟨fun _ => ⟨200, true, []⟩, none⟩ [("A", [0])] =
      .ok ⟨[], [("A", 0)], 1⟩ := by
  exact ⟨by decide, by decide⟩

/-- Claim C4 (amended): per occurrence of a key in the iteration sequence,
a 429 answer triggers the one-minute cooldown sleep and exactly one retry
of the same key; if the retry also fails (non-200) the occurrence issues no
further request, stores nothing, and processing continues with the next
key.  A later occurrence of the same (mint, bucket) key re-attempts it, so
the per-key total can exceed two requests. -/
theorem fetchRateLimit_retryOnce_perOccurrence (env : FetchEnv)
    (tokenAddress : String) (timestamp : ℕ) (rest : List (String × ℕ))
    (st : FetchSt)
    (hab : env.abortAt = none)
    (hskip : priceTruthy (objGet st.prices
      (fetchedTokenPriceKey tokenAddress
        (roundTimestampToMinuteBoundary timestamp))) = false)
    (h429 : (env.respond st.log.length).status = 429)
    (hfail : (env.respond (st.log.length + 1)).status ≠ 200) :
    fetchGo env ((tokenAddress, timestamp) :: rest) st =
      fetchGo env rest
        { st with
          log := st.log ++ [(tokenAddress, roundTimestampToMinuteBoundary timestamp),
            (tokenAddress, roundTimestampToMinuteBoundary timestamp)],
          clock := st.clock + 3 } := by
  simp [fetchGo, signalAborted_none hab, hskip, requestWithRetry, doFetch,
    doSleep, firesDuring_none hab, h429, hfail]

/-- Witness for the amended C4: one key, first answer 429, retry answers
500: exactly two requests for the occurrence, nothing stored, batch moves
on. -/
theorem fetchRateLimit_retryOnce_perOccurrence_witness :
    fetchGo ⟨fun i => if i = 0 then ⟨429, false, []⟩ else ⟨500, false, []⟩, none⟩
        [("A", 0), ("B", 0)] ⟨[], [], 0⟩ =
      fetchGo ⟨fun i => if i = 0 then ⟨429, false, []⟩ else ⟨500, false, []⟩, none⟩
        [("B", 0)] ⟨[], [("A", 0), ("A", 0)], 3⟩ := by
  have h := fetchRateLimit_retryOnce_perOccurrence
    ⟨fun i => if i = 0 then ⟨429, false, []⟩ else ⟨500, false, []⟩, none⟩
    "A" 0 [("B", 0)] ⟨[], [], 0⟩ rfl (by decide) (by decide) (by decide)
  simpa using h

/-- Counterexample for C4 as stated ("at most two requests per key in
total"): mint A appears at timestamps 0 and 30, both in bucket 0, and the
provider answers 429 to every A request; the key ("A", 0) is requested four
times in the batch (two occurrences, each with one retry), ends absent from
the result map, while sibling B still resolves. -/
theorem fetchRateLimit_fourRequests_counterexample :
    fetchTokenPrices
        ⟨fun i => if i ≤ 3 then ⟨429, false, []⟩ else ⟨200, true, [⟨"B", 0, 5⟩]⟩, none⟩
        [("A", [0, 30]), ("B", [0])] =
      .ok ⟨[("B-0", 5)], [("A", 0), ("A", 0), ("A", 0), ("A", 0), ("B", 0)], 7⟩ ∧
    ([("A", 0), ("A", 0), ("A", 0), ("A", 0), ("B", 0)] : List (String × ℕ)).count
        ("A", 0) = 4 := by
  exact ⟨by decide, by decide⟩

/-- Claim C5 (amended): when the first request for a key succeeds (HTTP
200, success=true, non-empty items) with a nonzero price, a second
occurrence of the same (mint, bucket) key in the batch is skipped by the
fetchedTokenPrices[key] check and issues no network request — so duplicate
timestamps in one bucket cost exactly one call.  (When the first request
fails, or stores the falsy price 0, later occurrences do re-request the
key — see the counterexample.) -/
theorem fetchDedupe_oneRequest_onSuccess (env : FetchEnv)
    (tokenAddress : String) (t1 t2 : ℕ) (rest : List (String × ℕ))
    (st : FetchSt) (item : BirdeyeItem) (items : List BirdeyeItem)
    (hab : env.abortAt = none)
    (hskip : priceTruthy (objGet st.prices
      (fetchedTokenPriceKey tokenAddress
        (roundTimestampToMinuteBoundary t1))) = false)
    (hresp : env.respond st.log.length = ⟨200, true, item :: items⟩)
    (hval : item.value ≠ 0)
    (hbucket : roundTimestampToMinuteBoundary t1 = roundTimestampToMinuteBoundary t2) :
    fetchGo env ((tokenAddress, t1) :: (tokenAddress, t2) :: rest) st =
      fetchGo env rest
        { st with
          prices := setPrice st.prices
            (fetchedTokenPriceKey tokenAddress (roundTimestampToMinuteBoundary t1))
            item.value,
          log := st.log ++ [(tokenAddress, roundTimestampToMinuteBoundary t1)],
          clock := st.clock + 1 } := by
  have h1 : fetchGo env ((tokenAddress, t1) :: (tokenAddress, t2) :: rest) st =
      fetchGo env ((tokenAddress, t2) :: rest)
        { st with
          prices := setPrice st.prices
            (fetchedTokenPriceKey tokenAddress (roundTimestampToMinuteBoundary t1))
            item.value,
          log := st.log ++ [(tokenAddress, roundTimestampToMinuteBoundary t1)],
          clock := st.clock + 1 } := by
    simp [fetchGo, signalAborted_none hab, hskip, requestWithRetry, doFetch,
      firesDuring_none hab, hresp, headValue]
  rw [h1]
  have h2 : priceTruthy (objGet (setPrice st.prices
      (fetchedTokenPriceKey tokenAddress (roundTimestampToMinuteBoundary t1))
      item.value)
      (fetchedTokenPriceKey tokenAddress (roundTimestampToMinuteBoundary t2))) = true := by
    rw [← hbucket, objGet_setPrice_self]
    simpa [priceTruthy] using hval
  simp [fetchGo, signalAborted_none hab, h2]

/-- Witness for the amended C5: key A at timestamps 0 and 30 (same bucket),
one successful response with price 5: a single request resolves both. -/
theorem fetchDedupe_oneRequest_onSuccess_witness :
    fetchGo ⟨fun _ => ⟨200, true, [⟨"A", 0, 5⟩]⟩, none⟩
        [("A", 0), ("A", 30)] ⟨[], [], 0⟩ =
      fetchGo ⟨fun _ => ⟨200, true, [⟨"A", 0, 5⟩]⟩, none⟩ [] ⟨[("A-0", 5)], [("A", 0)], 1⟩ := by
  have h := fetchDedupe_oneRequest_onSuccess
    ⟨fun _ => ⟨200, true, [⟨"A", 0, 5⟩]⟩, none⟩ "A" 0 30 [] ⟨[], [], 0⟩
    ⟨"A", 0, 5⟩ [] rfl (by decide) rfl (by decide) (by decide)
  simpa using h

/-- Counterexample for C5 as stated: three timestamps of one bucket do not
always cost one call — when the provider answers a non-success status the
key is never recorded, so every occurrence issues its own request: three
requests for ("A", 0) in one batch. -/
theorem fetchDedupe_failure_counterexample :
    fetchTokenPrices ⟨fun _ => ⟨500, false, []⟩, none⟩ [("A", [0, 30, 59])] =
      .ok ⟨[], [("A", 0), ("A", 0), ("A", 0)], 3⟩ ∧
    ([("A", 0), ("A", 0), ("A", 0)] : List (String × ℕ)).count ("A", 0) = 3 := by
  exact ⟨by decide, by decide⟩

lemma abs_sub_ratTrunc_lt_one (x : ℚ) : |x - (ratTrunc x : ℚ)| < 1 := by
  unfold ratTrunc
  by_cases h : 0 ≤ x
  · rw [if_pos h, abs_of_nonneg (sub_nonneg.2 (Int.floor_le x))]
    have := Int.sub_one_lt_floor x
    linarith
  · rw [if_neg h, abs_of_nonpos (sub_nonpos.2 (Int.le_ceil x))]
    have := Int.ceil_lt_add_one x
    linarith

lemma truncToPrec_digits (q : ℚ) (p : ℕ) :
    ∃ n : ℤ, truncToPrec q p = (n : ℚ) / 10 ^ p :=
  ⟨ratTrunc (q * 10 ^ p), rfl⟩

lemma truncToPrec_err (q : ℚ) (p : ℕ) :
    |truncToPrec q p - q| < 1 / 10 ^ p := by
  have h10 : (0 : ℚ) < 10 ^ p := by positivity
  have hrw : truncToPrec q p - q =
      ((ratTrunc (q * 10 ^ p) : ℚ) - q * 10 ^ p) / 10 ^ p := by
    unfold truncToPrec
    field_simp
    ring
  rw [hrw, abs_div, abs_of_pos h10, div_lt_div_iff_of_pos_right h10]
  have := abs_sub_ratTrunc_lt_one (q * 10 ^ p)
  calc |(ratTrunc (q * 10 ^ p) : ℚ) - q * 10 ^ p|
      = |q * 10 ^ p - (ratTrunc (q * 10 ^ p) : ℚ)| := abs_sub_comm _ _
    _ < 1 := this

lemma amtQ_ne_zero (a : AmountToDisplay) (md : MintData)
    (h : a.amount.mant ≠ 0) : amtQ a md ≠ 0 := by
  have htoQ : toQ a.amount ≠ 0 := by
    unfold toQ
    exact div_ne_zero (Int.cast_ne_zero.2 h) (by positivity)
  unfold amtQ
  by_cases hadj : a.adjustedForDecimals
  · rw [if_pos hadj]; exact htoQ
  · rw [if_neg hadj]; exact div_ne_zero htoQ (by positivity)

/-- Claim C6 (amended): for a trade with known input and output mint
metadata and nonzero amounts, getRates produces the two directional rates —
input-per-output carried to the input token's decimal precision and
output-per-input to the output token's precision, each within one
10^(-precision) ulp of the exact ratio — and RateCell renders "Unknown"
exactly when mint metadata is missing; a zero denominator amount instead
makes js-big-decimal throw "Cannot divide by 0" (see the counterexample),
it is not reported as "unknown". -/
theorem getRates_directionalRates (inA outA : AmountToDisplay)
    (imd omd : MintData)
    (hin : inA.amount.mant ≠ 0) (hout : outA.amount.mant ≠ 0) :
    getRates inA outA imd omd =
      .ok (truncToPrec (amtQ inA imd / amtQ outA omd) imd.decimals,
           truncToPrec (amtQ outA omd / amtQ inA imd) omd.decimals) ∧
    (∃ n : ℤ, truncToPrec (amtQ inA imd / amtQ outA omd) imd.decimals =
      (n : ℚ) / 10 ^ imd.decimals) ∧
    |truncToPrec (amtQ inA imd / amtQ outA omd) imd.decimals -
      amtQ inA imd / amtQ outA omd| < 1 / 10 ^ imd.decimals ∧
    (∃ n : ℤ, truncToPrec (amtQ outA omd / amtQ inA imd) omd.decimals =
      (n : ℚ) / 10 ^ omd.decimals) ∧
    |truncToPrec (amtQ outA omd / amtQ inA imd) omd.decimals -
      amtQ outA omd / amtQ inA imd| < 1 / 10 ^ omd.decimals ∧
    rateCell inA outA none (some omd) = .ok none ∧
    rateCell inA outA (some imd) none = .ok none := by
  have hinQ := amtQ_ne_zero inA imd hin
  have houtQ := amtQ_ne_zero outA omd hout
  refine ⟨?_, truncToPrec_digits _ _, truncToPrec_err _ _,
    truncToPrec_digits _ _, truncToPrec_err _ _, rfl, rfl⟩
  simp [getRates, bigDecimalDivide, hinQ, houtQ, Bind.bind, Except.bind]

/-- Witness for the amended C6: a trade of 1.5 IN for 2 OUT with 2 and 3
decimals respectively. -/
theorem getRates_directionalRates_witness :
    getRates ⟨⟨15, 1⟩, true⟩ ⟨⟨2, 0⟩, true⟩ ⟨"MintIn", "In", "IN", 2, "u"⟩
        ⟨"MintOut", "Out", "OUT", 3, "u"⟩ =
      .ok (truncToPrec (amtQ ⟨⟨15, 1⟩, true⟩ ⟨"MintIn", "In", "IN", 2, "u"⟩ /
            amtQ ⟨⟨2, 0⟩, true⟩ ⟨"MintOut", "Out", "OUT", 3, "u"⟩) 2,
          truncToPrec (amtQ ⟨⟨2, 0⟩, true⟩ ⟨"MintOut", "Out", "OUT", 3, "u"⟩ /
            amtQ ⟨⟨15, 1⟩, true⟩ ⟨"MintIn", "In", "IN", 2, "u"⟩) 3) ∧
    |truncToPrec (amtQ ⟨⟨15, 1⟩, true⟩ ⟨"MintIn", "In", "IN", 2, "u"⟩ /
        amtQ ⟨⟨2, 0⟩, true⟩ ⟨"MintOut", "Out", "OUT", 3, "u"⟩) 2 -
      amtQ ⟨⟨15, 1⟩, true⟩ ⟨"MintIn", "In", "IN", 2, "u"⟩ /
        amtQ ⟨⟨2, 0⟩, true⟩ ⟨"MintOut", "Out", "OUT", 3, "u"⟩| < 1 / 10 ^ 2 := by
  have h := getRates_directionalRates ⟨⟨15, 1⟩, true⟩ ⟨⟨2, 0⟩, true⟩
    ⟨"MintIn", "In", "IN", 2, "u"⟩ ⟨"MintOut", "Out", "OUT", 3, "u"⟩
    (by decide) (by decide)
  exact ⟨h.1, h.2.2.1⟩

/-- Counterexample for C6 as stated: a trade whose output (denominator)
amount is zero does not yield "unknown" — getRates propagates the
js-big-decimal division error. -/
theorem getRates_zeroDenominator_counterexample :
    getRates ⟨⟨15, 1⟩, true⟩ ⟨⟨0, 0⟩, true⟩ ⟨"MintIn", "In", "IN", 2, "u"⟩
        ⟨"MintOut", "Out", "OUT", 3, "u"⟩ = .error "Cannot divide by 0" ∧
    rateCell ⟨⟨15, 1⟩, true⟩ ⟨⟨0, 0⟩, true⟩ (some ⟨"MintIn", "In", "IN", 2, "u"⟩)
        (some ⟨"MintOut", "Out", "OUT", 3, "u"⟩) = .error "Cannot divide by 0" := by
  have hz : amtQ ⟨⟨0, 0⟩, true⟩ ⟨"MintOut", "Out", "OUT", 3, "u"⟩ = 0 := by
    simp [amtQ, toQ]
  constructor
  · simp [getRates, bigDecimalDivide, hz, Bind.bind, Except.bind]
  · simp [rateCell, getRates, bigDecimalDivide, hz, Bind.bind, Except.bind, Except.map]

lemma pairsOf_nil : pairsOf [] = [] := rfl

lemma pairsOf_cons (p : String × List ℕ) (m : List (String × List ℕ)) :
    pairsOf (p :: m) = p.2.map (fun ts => (p.1, ts)) ++ pairsOf m := rfl

lemma mem_pairsOf_pushTs (m : List (String × List ℕ)) (k : String) (ts : ℕ)
    (a : String) (t : ℕ) :
    (a, t) ∈ pairsOf (pushTs m k ts) ↔
      (a, t) ∈ pairsOf m ∨ (a = k ∧ t = ts) := by
  induction m with
  | nil => simp [pushTs, pairsOf]
  | cons hd rest ih =>
    obtain ⟨k', l⟩ := hd
    by_cases h : k' = k
    · subst h
      have hps : pushTs ((k', l) :: rest) k' ts = (k', l ++ [ts]) :: rest := by
        simp [pushTs]
      rw [hps, pairsOf_cons, pairsOf_cons]
      simp only [List.map_append, List.map_cons, List.map_nil, List.mem_append,
        List.mem_map, List.mem_cons, List.not_mem_nil, or_false, Prod.mk.injEq]
      aesop
    · have hps : pushTs ((k', l) :: rest) k ts = (k', l) :: pushTs rest k ts := by
        simp [pushTs, h]
      rw [hps, pairsOf_cons, pairsOf_cons]
      simp only [List.mem_append, ih]
      tauto

lemma mem_pairsOf_foldl (events : List Event) (acc : List (String × List ℕ))
    (a : String) (t : ℕ) :
    (a, t) ∈ pairsOf (events.foldl pushEvent acc) ↔
      (a, t) ∈ pairsOf acc ∨
      (∃ d, Event.deposit d ∈ events ∧ a = d.inputMint ∧ t = d.date / 1000) ∨
      (∃ tr, Event.trade tr ∈ events ∧
        (a = tr.inputMint ∨ a = tr.outputMint) ∧ t = tr.date / 1000) := by
  induction events generalizing acc with
  | nil => simp
  | cons e rest ih =>
    rw [List.foldl_cons, ih]
    cases e with
    | deposit d =>
      simp only [pushEvent, mem_pairsOf_pushTs]
      constructor
      · rintro ((hm | ⟨rfl, rfl⟩) | h | h)
        · exact Or.inl hm
        · exact Or.inr (Or.inl ⟨d, by simp, rfl, rfl⟩)
        · obtain ⟨d', hd', he⟩ := h
          exact Or.inr (Or.inl ⟨d', by simp [hd'], he⟩)
        · obtain ⟨tr, htr, he⟩ := h
          exact Or.inr (Or.inr ⟨tr, by simp [htr], he⟩)
      · rintro (hm | h | h)
        · exact Or.inl (Or.inl hm)
        · obtain ⟨d', hd', he⟩ := h
          rcases List.mem_cons.1 hd' with heq | hmem
          · cases heq
            exact Or.inl (Or.inr ⟨he.1, he.2⟩)
          · exact Or.inr (Or.inl ⟨d', hmem, he⟩)
        · obtain ⟨tr, htr, he⟩ := h
          rcases List.mem_cons.1 htr with heq | hmem
          · cases heq
          · exact Or.inr (Or.inr ⟨tr, hmem, he⟩)
    | trade tr =>
      simp only [pushEvent, mem_pairsOf_pushTs]
      constructor
      · rintro (((hm | ⟨rfl, rfl⟩) | ⟨rfl, rfl⟩) | h | h)
        · exact Or.inl hm
        · exact Or.inr (Or.inr ⟨tr, by simp, Or.inl rfl, rfl⟩)
        · exact Or.inr (Or.inr ⟨tr, by simp, Or.inr rfl, rfl⟩)
        · obtain ⟨d', hd', he⟩ := h
          exact Or.inr (Or.inl ⟨d', by simp [hd'], he⟩)
        · obtain ⟨tr', htr', he⟩ := h
          exact Or.inr (Or.inr ⟨tr', by simp [htr'], he⟩)
      · rintro (hm | h | h)
        · exact Or.inl (Or.inl (Or.inl hm))
        · obtain ⟨d', hd', he⟩ := h
          rcases List.mem_cons.1 hd' with heq | hmem
          · cases heq
          · exact Or.inr (Or.inl ⟨d', hmem, he⟩)
        · obtain ⟨tr', htr', he⟩ := h
          rcases List.mem_cons.1 htr' with heq | hmem
          · cases heq
            rcases he with ⟨rfl | rfl, rfl⟩
            · exact Or.inl (Or.inl (Or.inr ⟨rfl, rfl⟩))
            · exact Or.inl (Or.inr ⟨rfl, rfl⟩)
          · exact Or.inr (Or.inr ⟨tr', hmem, he⟩)

/-- Claim C8: price-key derivation is a pure function yielding, for each
Trade, both the input and output mint paired with the trade's timestamp,
and for each Deposit the input mint only — exactly these lookups and no
others. -/
theorem getTokenPricesToFetch_exactLookups (events : List Event)
    (a : String) (t : ℕ) :
    (a, t) ∈ pairsOf (getTokenPricesToFetch events) ↔
      (∃ d, Event.deposit d ∈ events ∧ a = d.inputMint ∧ t = d.date / 1000) ∨
      (∃ tr, Event.trade tr ∈ events ∧
        (a = tr.inputMint ∨ a = tr.outputMint) ∧ t = tr.date / 1000) := by
  rw [getTokenPricesToFetch, mem_pairsOf_foldl]
  simp [pairsOf]
